import Mathlib

/-!
Shallow embedding of the MinIO file provider service
(`src/backend/src/modules/minio-file/service.ts`) and of the storefront
`FeaturedProducts` component
(`src/storefront/src/modules/home/components/featured-products/index.tsx`).

The object-store client (the `Client` of the `minio` package) is modelled as an oracle
(`ClientBehavior`) describing the outcome of each kind of client call; each
service operation returns its result together with the list of client calls it
issued and the log lines it emitted, so that properties about validation,
error translation and call traces can be stated and proved.
-/

namespace MinioFile

/-- The two `MedusaError.Types` values the service uses. -/
inductive ErrType where
  | invalid_data
  | unexpected_state
  deriving DecidableEq, Repr

/-- A `MedusaError`: a framework error type together with a message. -/
structure MedusaError where
  type : ErrType
  message : String
  deriving DecidableEq, Repr

/-- Log levels of the injected `Logger` as used by the service. -/
inductive LogLevel where
  | info
  | warn
  | error
  deriving DecidableEq, Repr

/-- A call issued to the MinIO `Client`, with the arguments the service passes. -/
inductive ClientCall where
  | putObject (bucket key : String) (content : List Nat) (mimeType origFilename : String)
  | removeObject (bucket key : String)
  | presignedGetObject (bucket key : String) (expirySeconds : Nat)
  | presignedPutObject (bucket key : String) (expirySeconds : Nat)
  | getObject (bucket key : String)
  | bucketExists (bucket : String)
  | makeBucket (bucket : String)
  | setBucketPolicy (bucket policy : String)
  deriving DecidableEq, Repr

/-- The bucket argument a client call carries. -/
def ClientCall.bucketOf : ClientCall → String
  | .putObject b _ _ _ _ => b
  | .removeObject b _ => b
  | .presignedGetObject b _ _ => b
  | .presignedPutObject b _ _ => b
  | .getObject b _ => b
  | .bucketExists b => b
  | .makeBucket b => b
  | .setBucketPolicy b _ => b

/-- A readable stream returned by `client.getObject`: it emits `chunks` in
order and then either ends normally (`errorAfter = none`) or emits an error
event with the given message. -/
structure MinioStream where
  chunks : List (List Nat)
  errorAfter : Option String
  deriving DecidableEq, Repr

/-- Oracle describing the outcome of each client call: `.ok` models a resolved
promise, `.error msg` a rejection whose error has message `msg`. -/
structure ClientBehavior where
  putObjectResult : Except String Unit
  removeObjectResult : String → Except String Unit
  presignedGetObjectResult : Except String String
  presignedPutObjectResult : Except String String
  getObjectResult : Except String MinioStream
  bucketExistsResult : Except String Bool
  makeBucketResult : Except String Unit
  setBucketPolicyResult : Except String Unit

/-- Result of one service operation: the value returned or the `MedusaError`
thrown, the client calls issued (in order), and the log lines emitted. -/
structure OpResult (α : Type) where
  result : Except MedusaError α
  calls : List ClientCall
  logs : List (LogLevel × String)
  deriving Repr

/-- `DEFAULT_BUCKET` constant of the source. -/
def DEFAULT_BUCKET : String := "medusa-media"

/-- JavaScript `a || b` on an optional string: `undefined` and the empty
string are falsy. -/
def jsOr (a : Option String) (b : String) : String :=
  match a with
  | none => b
  | some s => if s = "" then b else s

/-- Provider options (`MinioFileProviderOptions`); `bucket` and
`publicEndpoint` are optional. -/
structure Options where
  endPoint : String
  accessKey : String
  secretKey : String
  bucket : Option String
  publicEndpoint : Option String

/-- Output of `parseEndpoint` (`ParsedEndpoint` in the source). The parsing
itself delegates to the WHATWG `URL` class and is not modelled; constructions
take the parsed endpoint as given. -/
structure ParsedEndpoint where
  protocol : String
  hostname : String
  port : Nat
  host : String

/-- The state the constructor fixes for the lifetime of the service: the
bucket and the public endpoint used for URL generation. -/
structure Service where
  bucket : String
  publicEndpoint : String
  deriving DecidableEq, Repr

/-- The computation the constructor performs for the service fields:
`this.bucket = this.config_.bucket || DEFAULT_BUCKET` and
`this.publicEndpoint = this.config_.publicEndpoint || protocol//host`. -/
def mkService (opts : Options) (endpointUrl : ParsedEndpoint) : Service :=
  { bucket := jsOr opts.bucket DEFAULT_BUCKET
    publicEndpoint :=
      jsOr opts.publicEndpoint (endpointUrl.protocol ++ "//" ++ endpointUrl.host) }

/-! ### Node `path.parse`, restricted to the `name` and `ext` fields

`upload` computes `path.parse(file.filename)` and uses only `.name` and
`.ext`. We model the POSIX behaviour: trailing separators are ignored, the
basename is what follows the last `/`, and within the basename the extension
starts at the last `.` unless that dot is the first character (or the
basename is `..`), in which case the extension is empty. -/

/-- Drop trailing `/` characters (Node ignores trailing separators). -/
def stripTrailingSlashes (l : List Char) : List Char :=
  (l.reverse.dropWhile (· = '/')).reverse

/-- The part after the last `/` (the whole list when there is no `/`). -/
def afterLastSlash (l : List Char) : List Char :=
  (l.reverse.takeWhile (· ≠ '/')).reverse

/-- Split a basename into `(name, ext)` as Node `path.parse` does. -/
def extSplit (base : List Char) : List Char × List Char :=
  if base = ['.', '.'] then (base, [])
  else
    match base.reverse.dropWhile (· ≠ '.') with
    | [] => (base, [])
    | [_] => (base, [])
    | _ :: rest => (rest.reverse, '.' :: (base.reverse.takeWhile (· ≠ '.')).reverse)

/-- `path.parse p` restricted to `(name, ext)`. -/
def pathParse (p : String) : String × String :=
  let base := afterLastSlash (stripTrailingSlashes p.data)
  let ne := extSplit base
  (String.mk ne.1, String.mk ne.2)

/-- `Buffer.from` with the binary (latin1) encoding: each character contributes its code point
modulo 256 as one byte. -/
def bufferFromBinary (s : String) : List Nat :=
  s.data.map (fun c => c.toNat % 256)

/-! ### The file operations -/

/-- `ProviderUploadFileDTO`, with the fields `upload` reads. A missing or
empty `filename` (both falsy in JavaScript) is modelled as `""`. -/
structure UploadFileDTO where
  filename : String
  mimeType : String
  content : String
  deriving DecidableEq, Repr

/-- `ProviderFileResultDTO`. -/
structure FileResultDTO where
  url : String
  key : String
  deriving DecidableEq, Repr

/-- `ProviderGetFileDTO` / `ProviderDeleteFileDTO`: the `fileKey` field;
missing or empty is modelled as `""`. -/
structure FileKeyDTO where
  fileKey : String
  deriving DecidableEq, Repr

/-- `ProviderGetPresignedUploadUrlDTO`: the `filename` field. -/
structure PresignedUploadDTO where
  filename : String
  deriving DecidableEq, Repr

/-- `upload`. `u` is the string produced by the `ulid()` call. -/
def upload (svc : Service) (beh : ClientBehavior) (u : String)
    (file : Option UploadFileDTO) : OpResult FileResultDTO :=
  match file with
  | none => ⟨.error ⟨.invalid_data, "No file provided"⟩, [], []⟩
  | some f =>
    if f.filename = "" then
      ⟨.error ⟨.invalid_data, "No filename provided"⟩, [], []⟩
    else
      let parsed := pathParse f.filename
      let fileKey := parsed.1 ++ "-" ++ u ++ parsed.2
      let content := bufferFromBinary f.content
      let call := ClientCall.putObject svc.bucket fileKey content f.mimeType f.filename
      match beh.putObjectResult with
      | .error msg =>
        ⟨.error ⟨.unexpected_state, "Failed to upload file: " ++ msg⟩, [call],
          [(.error, "Failed to upload file: " ++ msg)]⟩
      | .ok _ =>
        let url := svc.publicEndpoint ++ "/" ++ svc.bucket ++ "/" ++ fileKey
        ⟨.ok ⟨url, fileKey⟩, [call],
          [(.info, "Successfully uploaded file " ++ fileKey ++ " to MinIO bucket " ++ svc.bucket),
           (.info, "Generated public URL: " ++ url)]⟩

/-- The argument of `delete`: a single DTO or an array of DTOs; a `null`
entry is `none`. -/
inductive DeleteInput where
  | single (f : Option FileKeyDTO)
  | list (fs : List (Option FileKeyDTO))
  deriving DecidableEq, Repr

/-- `Array.isArray(fileData) ? fileData : [fileData]`. -/
def normalizeDeleteInput : DeleteInput → List (Option FileKeyDTO)
  | .single f => [f]
  | .list fs => fs

/-- `file?.fileKey` is truthy. -/
def validEntry : Option FileKeyDTO → Bool
  | none => false
  | some fd => fd.fileKey ≠ ""

/-- The log line the loop body of `delete` emits for one removal attempt:
`info` on success, `warn` (the error is caught) on failure. -/
def removeLog (svc : Service) (beh : ClientBehavior) (key : String) : LogLevel × String :=
  match beh.removeObjectResult key with
  | .ok _ =>
    (.info, "Successfully deleted file " ++ key ++ " from MinIO bucket " ++ svc.bucket)
  | .error msg => (.warn, "Failed to delete file " ++ key ++ ": " ++ msg)

/-- The `for` loop body of `delete`, over the normalized list. -/
def deleteLoop (svc : Service) (beh : ClientBehavior) :
    List (Option FileKeyDTO) → OpResult Unit
  | [] => ⟨.ok (), [], []⟩
  | none :: _ => ⟨.error ⟨.invalid_data, "No file key provided"⟩, [], []⟩
  | some fd :: rest =>
    if fd.fileKey = "" then ⟨.error ⟨.invalid_data, "No file key provided"⟩, [], []⟩
    else
      let r := deleteLoop svc beh rest
      ⟨r.result, ClientCall.removeObject svc.bucket fd.fileKey :: r.calls,
        removeLog svc beh fd.fileKey :: r.logs⟩

/-- `delete`. -/
def delete (svc : Service) (beh : ClientBehavior) (fileData : DeleteInput) : OpResult Unit :=
  deleteLoop svc beh (normalizeDeleteInput fileData)

/-- `getPresignedDownloadUrl`. -/
def getPresignedDownloadUrl (svc : Service) (beh : ClientBehavior)
    (fileData : Option FileKeyDTO) : OpResult String :=
  match fileData with
  | none => ⟨.error ⟨.invalid_data, "No file key provided"⟩, [], []⟩
  | some fd =>
    if fd.fileKey = "" then ⟨.error ⟨.invalid_data, "No file key provided"⟩, [], []⟩
    else
      let call := ClientCall.presignedGetObject svc.bucket fd.fileKey (24 * 60 * 60)
      match beh.presignedGetObjectResult with
      | .ok url =>
        ⟨.ok url, [call], [(.info, "Generated presigned URL for file " ++ fd.fileKey)]⟩
      | .error msg =>
        ⟨.error ⟨.unexpected_state, "Failed to generate presigned URL: " ++ msg⟩, [call],
          [(.error, "Failed to generate presigned URL: " ++ msg)]⟩

/-- `getPresignedUploadUrl`. -/
def getPresignedUploadUrl (svc : Service) (beh : ClientBehavior)
    (fileData : Option PresignedUploadDTO) : OpResult FileResultDTO :=
  match fileData with
  | none => ⟨.error ⟨.invalid_data, "No filename provided"⟩, [], []⟩
  | some fd =>
    if fd.filename = "" then ⟨.error ⟨.invalid_data, "No filename provided"⟩, [], []⟩
    else
      let fileKey := fd.filename
      let call := ClientCall.presignedPutObject svc.bucket fileKey (15 * 60)
      match beh.presignedPutObjectResult with
      | .ok url => ⟨.ok ⟨url, fileKey⟩, [call], []⟩
      | .error msg =>
        ⟨.error ⟨.unexpected_state, "Failed to generate presigned upload URL: " ++ msg⟩, [call],
          [(.error, "Failed to generate presigned upload URL: " ++ msg)]⟩

/-- `getAsBuffer`. The inner promise pushes every `data` chunk, resolves with
`Buffer.concat(chunks)` on `end`, and rejects on `error`; the surrounding
`try` turns either a `getObject` rejection or a stream error into a
`MedusaError`. -/
def getAsBuffer (svc : Service) (beh : ClientBehavior)
    (fileData : Option FileKeyDTO) : OpResult (List Nat) :=
  match fileData with
  | none => ⟨.error ⟨.invalid_data, "No file key provided"⟩, [], []⟩
  | some fd =>
    if fd.fileKey = "" then ⟨.error ⟨.invalid_data, "No file key provided"⟩, [], []⟩
    else
      let call := ClientCall.getObject svc.bucket fd.fileKey
      match beh.getObjectResult with
      | .error msg =>
        ⟨.error ⟨.unexpected_state, "Failed to get buffer: " ++ msg⟩, [call],
          [(.error, "Failed to get buffer: " ++ msg)]⟩
      | .ok stream =>
        match stream.errorAfter with
        | some msg =>
          ⟨.error ⟨.unexpected_state, "Failed to get buffer: " ++ msg⟩, [call],
            [(.error, "Failed to get buffer: " ++ msg)]⟩
        | none =>
          ⟨.ok stream.chunks.flatten, [call],
            [(.info, "Retrieved buffer for file " ++ fd.fileKey)]⟩

/-- `getDownloadStream`: returns the MinIO stream directly. -/
def getDownloadStream (svc : Service) (beh : ClientBehavior)
    (fileData : Option FileKeyDTO) : OpResult MinioStream :=
  match fileData with
  | none => ⟨.error ⟨.invalid_data, "No file key provided"⟩, [], []⟩
  | some fd =>
    if fd.fileKey = "" then ⟨.error ⟨.invalid_data, "No file key provided"⟩, [], []⟩
    else
      let call := ClientCall.getObject svc.bucket fd.fileKey
      match beh.getObjectResult with
      | .error msg =>
        ⟨.error ⟨.unexpected_state, "Failed to get download stream: " ++ msg⟩, [call],
          [(.error, "Failed to get download stream: " ++ msg)]⟩
      | .ok stream =>
        ⟨.ok stream, [call],
          [(.info, "Retrieved download stream for file " ++ fd.fileKey)]⟩

/-! ### `initializeBucket` -/

/-- The `JSON.stringify` of the public-read policy object built by
`initializeBucket` (key order follows insertion order). -/
def bucketPolicyJson (bucket : String) : String :=
  "\x7b\"Version\":\"2012-10-17\",\"Statement\":[\x7b\"Sid\":\"PublicRead\",\"Effect\":\"Allow\",\"Principal\":\"*\",\"Action\":[\"s3:GetObject\"],\"Resource\":[\"arn:aws:s3:::"
    ++ bucket ++ "/*\"]\x7d]\x7d"

/-- Result of `initializeBucket`: it rethrows the raw client error (not a
`MedusaError`), so the error type is the raw message. -/
structure InitResult where
  result : Except String Unit
  calls : List ClientCall
  logs : List (LogLevel × String)
  deriving Repr

/-- `initializeBucket`. -/
def initializeBucket (svc : Service) (beh : ClientBehavior) : InitResult :=
  let existsCall := ClientCall.bucketExists svc.bucket
  match beh.bucketExistsResult with
  | .error msg =>
    ⟨.error msg, [existsCall], [(.error, "Error initializing bucket: " ++ msg)]⟩
  | .ok false =>
    match beh.makeBucketResult with
    | .error msg =>
      ⟨.error msg, [existsCall, ClientCall.makeBucket svc.bucket],
        [(.error, "Error initializing bucket: " ++ msg)]⟩
    | .ok _ =>
      let mkLog := (LogLevel.info, "Created bucket: " ++ svc.bucket)
      let policyCall := ClientCall.setBucketPolicy svc.bucket (bucketPolicyJson svc.bucket)
      match beh.setBucketPolicyResult with
      | .error msg =>
        ⟨.error msg, [existsCall, ClientCall.makeBucket svc.bucket, policyCall],
          [mkLog, (.error, "Error initializing bucket: " ++ msg)]⟩
      | .ok _ =>
        ⟨.ok (), [existsCall, ClientCall.makeBucket svc.bucket, policyCall],
          [mkLog, (.info, "Set public read policy for bucket: " ++ svc.bucket)]⟩
  | .ok true =>
    let useLog := (LogLevel.info, "Using existing bucket: " ++ svc.bucket)
    let policyCall := ClientCall.setBucketPolicy svc.bucket (bucketPolicyJson svc.bucket)
    match beh.setBucketPolicyResult with
    | .error msg =>
      ⟨.ok (), [existsCall, policyCall],
        [useLog, (.warn, "Failed to update policy for existing bucket: " ++ msg)]⟩
    | .ok _ =>
      ⟨.ok (), [existsCall, policyCall],
        [useLog, (.info, "Updated public read policy for existing bucket: " ++ svc.bucket)]⟩

/-- Key of a delete entry (`""` for a missing entry or missing key). -/
def keyStr : Option FileKeyDTO → String
  | none => ""
  | some fd => fd.fileKey

/-- Crockford base32 alphabet used by `ulid()`. -/
def ulidAlphabet : List Char := "0123456789ABCDEFGHJKMNPQRSTVWXYZ".data

/-- A string is a ULID: 26 characters over the Crockford base32 alphabet. -/
def isULID (u : String) : Bool :=
  u.data.length == 26 && u.data.all (fun c => ulidAlphabet.contains c)

/-- A sample service state (defaults: bucket `medusa-media`). -/
def svc0 : Service := ⟨"medusa-media", "https://cdn.example.com"⟩

/-- A client behavior where every call succeeds. -/
def behOK : ClientBehavior :=
  ⟨.ok (), fun _ => .ok (), .ok "https://signed.example.com/get",
    .ok "https://signed.example.com/put", .ok ⟨[[104, 105]], none⟩, .ok true, .ok (), .ok ()⟩

/-- A client behavior where every call fails with message `boom`. -/
def behFail : ClientBehavior :=
  ⟨.error "boom", fun _ => .error "boom", .error "boom", .error "boom",
    .error "boom", .error "boom", .error "boom", .error "boom"⟩

/-- A client behavior where the bucket does not exist and everything else
succeeds. -/
def behNoBucket : ClientBehavior :=
  ⟨.ok (), fun _ => .ok (), .ok "https://signed.example.com/get",
    .ok "https://signed.example.com/put", .ok ⟨[[104, 105]], none⟩, .ok false, .ok (), .ok ()⟩

/-- A sample ULID string. -/
def ulid0 : String := "01ARZ3NDEKTSV4RRFFQ69G5FAV"

end MinioFile

namespace Storefront

/-- A product collection as consumed by `FeaturedProducts` (fetched via
`listCollections`). -/
structure Collection where
  id : String
  title : String
  products : List String
  deriving DecidableEq, Repr

/-- A region as returned by `getRegion`. -/
structure Region where
  id : String
  deriving DecidableEq, Repr

/-- One rendered `<li>` of the output list: a `ProductRail` for a collection
and the region, keyed by the collection id. -/
structure RenderedItem where
  key : String
  collection : Collection
  region : Region
  deriving DecidableEq, Repr

/-- `FeaturedProducts`, given the value fetched by `listCollections` (where
`none` models an absent `collections` field) and the result of
`getRegion countryCode` (`none` when the lookup yields no region). Returns
`none` for the `null` render, otherwise the list of rendered items. -/
def FeaturedProducts (collections : Option (List Collection)) (region : Option Region) :
    Option (List RenderedItem) :=
  match collections, region with
  | some cs, some r => some (cs.map (fun c => ⟨c.id, c, r⟩))
  | some _, none => none
  | none, _ => none

end Storefront


/-! ## Helper lemmas -/

namespace MinioFile

theorem deleteLoop_all_valid (svc : Service) (beh : ClientBehavior) :
    ∀ fs : List (Option FileKeyDTO), (∀ f ∈ fs, validEntry f = true) →
      (deleteLoop svc beh fs).result = .ok ()
      ∧ (deleteLoop svc beh fs).calls =
          fs.map (fun g => ClientCall.removeObject svc.bucket (keyStr g))
      ∧ (deleteLoop svc beh fs).logs = fs.map (fun g => removeLog svc beh (keyStr g)) := by
  intro fs
  induction fs with
  | nil => intro _; exact ⟨rfl, rfl, rfl⟩
  | cons f rest ih =>
    intro h
    have hf : validEntry f = true := h f (by simp)
    match f with
    | none => simp [validEntry] at hf
    | some fd =>
      have hk : ¬ fd.fileKey = "" := by simpa [validEntry] using hf
      have ihr := ih (fun c hc => h c (by simp [hc]))
      simp only [deleteLoop, if_neg hk, List.map_cons]
      exact ⟨ihr.1, by simp [keyStr, ihr.2.1], by simp [keyStr, ihr.2.2]⟩

theorem deleteLoop_error_char (svc : Service) (beh : ClientBehavior) :
    ∀ (fs : List (Option FileKeyDTO)) (e : MedusaError),
      (deleteLoop svc beh fs).result = .error e →
      e = ⟨.invalid_data, "No file key provided"⟩
      ∧ (deleteLoop svc beh fs).calls =
          (fs.takeWhile validEntry).map (fun g => ClientCall.removeObject svc.bucket (keyStr g)) := by
  intro fs
  induction fs with
  | nil => intro e h; simp [deleteLoop] at h
  | cons f rest ih =>
    intro e h
    match f with
    | none =>
      simp only [deleteLoop] at h
      cases h
      exact ⟨rfl, by simp [validEntry, deleteLoop]⟩
    | some fd =>
      by_cases hk : fd.fileKey = ""
      · simp only [deleteLoop, if_pos hk] at h
        cases h
        refine ⟨rfl, ?_⟩
        have : validEntry (some fd) = false := by simp [validEntry, hk]
        simp [deleteLoop, if_pos hk, List.takeWhile_cons, this]
      · simp only [deleteLoop, if_neg hk] at h
        have ihr := ih e h
        have hv : validEntry (some fd) = true := by simp [validEntry, hk]
        simp only [deleteLoop, if_neg hk, List.takeWhile_cons, hv, List.map_cons]
        exact ⟨ihr.1, by simp [keyStr, ihr.2]⟩

theorem deleteLoop_error_of_invalid (svc : Service) (beh : ClientBehavior) :
    ∀ fs : List (Option FileKeyDTO), (∃ f ∈ fs, validEntry f = false) →
      (deleteLoop svc beh fs).result = .error ⟨.invalid_data, "No file key provided"⟩ := by
  intro fs
  induction fs with
  | nil => rintro ⟨f, hf, _⟩; simp at hf
  | cons f rest ih =>
    rintro ⟨g, hg, hgv⟩
    match f with
    | none => simp [deleteLoop]
    | some fd =>
      by_cases hk : fd.fileKey = ""
      · simp [deleteLoop, if_pos hk]
      · simp only [deleteLoop, if_neg hk]
        rcases List.mem_cons.mp hg with rfl | hgr
        · simp [validEntry, hk] at hgv
        · exact ih ⟨g, hgr, hgv⟩

theorem deleteLoop_calls_bucket (svc : Service) (beh : ClientBehavior) :
    ∀ fs : List (Option FileKeyDTO), ∀ c ∈ (deleteLoop svc beh fs).calls,
      c.bucketOf = svc.bucket := by
  intro fs
  induction fs with
  | nil => intro c hc; simp [deleteLoop] at hc
  | cons f rest ih =>
    intro c hc
    match f with
    | none => simp [deleteLoop] at hc
    | some fd =>
      by_cases hk : fd.fileKey = ""
      · simp [deleteLoop, if_pos hk] at hc
      · simp only [deleteLoop, if_neg hk, List.mem_cons] at hc
        rcases hc with rfl | hc
        · rfl
        · exact ih c hc

end MinioFile

namespace MinioFile

theorem dropWhile_head_false {α} (p : α → Bool) :
    ∀ (l : List α) (x : α) (rest : List α), l.dropWhile p = x :: rest → p x = false := by
  intro l
  induction l with
  | nil => intro x rest h; simp [List.dropWhile] at h
  | cons a l ih =>
    intro x rest h
    by_cases ha : p a
    · rw [List.dropWhile_cons_of_pos ha] at h
      exact ih x rest h
    · rw [List.dropWhile_cons_of_neg ha] at h
      cases h
      exact Bool.eq_false_iff.mpr ha

theorem takeWhile_eq_self_of_all {α} (p : α → Bool) :
    ∀ l : List α, (∀ c ∈ l, p c = true) → l.takeWhile p = l := by
  intro l
  induction l with
  | nil => intro _; rfl
  | cons a l ih =>
    intro h
    rw [List.takeWhile_cons_of_pos (h a (by simp))]
    rw [ih (fun c hc => h c (by simp [hc]))]

theorem dropWhile_eq_self_of_all_false {α} (p : α → Bool) :
    ∀ l : List α, (∀ c ∈ l, p c = false) → l.dropWhile p = l := by
  intro l h
  cases l with
  | nil => rfl
  | cons a l => rw [List.dropWhile_cons_of_neg (by simp [h a (by simp)])]

theorem extSplit_append (b : List Char) : (extSplit b).1 ++ (extSplit b).2 = b := by
  unfold extSplit
  by_cases hb : b = ['.', '.']
  · simp [hb]
  · simp only [if_neg hb]
    rcases hd : b.reverse.dropWhile (· ≠ '.') with _ | ⟨x, _ | ⟨y, rest2⟩⟩
    · simp
    · simp
    · have hx : x = '.' := by
        have := dropWhile_head_false (· ≠ '.') b.reverse x (y :: rest2) hd
        simpa using this
      subst hx
      have hb2 : (b.reverse.takeWhile (· ≠ '.')) ++ ('.' :: y :: rest2) = b.reverse := by
        rw [← hd]
        exact List.takeWhile_append_dropWhile _ _
      calc (y :: rest2).reverse ++ '.' :: (b.reverse.takeWhile (· ≠ '.')).reverse
          = (b.reverse.takeWhile (· ≠ '.') ++ '.' :: y :: rest2).reverse := by
            simp [List.reverse_append]
        _ = b.reverse.reverse := by rw [hb2]
        _ = b := List.reverse_reverse b

theorem extSplit_name_mem (b : List Char) : ∀ c ∈ (extSplit b).1, c ∈ b := by
  unfold extSplit
  by_cases hb : b = ['.', '.']
  · simp [hb]
  · simp only [if_neg hb]
    rcases hd : b.reverse.dropWhile (· ≠ '.') with _ | ⟨x, _ | ⟨y, rest2⟩⟩
    · simp
    · simp
    · intro c hc
      simp only [List.mem_reverse] at hc
      have h1 : c ∈ b.reverse.dropWhile (· ≠ '.') := by
        rw [hd]
        exact List.mem_cons_of_mem x hc
      have h2 : c ∈ b.reverse := List.Sublist.mem h1 (List.dropWhile_sublist _)
      exact List.mem_reverse.mp h2

theorem extSplit_ext_mem (b : List Char) : ∀ c ∈ (extSplit b).2, c = '.' ∨ c ∈ b := by
  unfold extSplit
  by_cases hb : b = ['.', '.']
  · simp [hb]
  · simp only [if_neg hb]
    rcases hd : b.reverse.dropWhile (· ≠ '.') with _ | ⟨x, _ | ⟨y, rest2⟩⟩
    · simp
    · simp
    · intro c hc
      rcases List.mem_cons.mp hc with rfl | hc2
      · exact Or.inl rfl
      · right
        rw [List.mem_reverse] at hc2
        have h2 : c ∈ b.reverse := List.Sublist.mem hc2 (List.takeWhile_sublist _)
        exact List.mem_reverse.mp h2

theorem afterLastSlash_no_slash (l : List Char) : '/' ∉ afterLastSlash l := by
  intro h
  unfold afterLastSlash at h
  rw [List.mem_reverse] at h
  have := List.mem_takeWhile_imp h
  simp at this

theorem afterLastSlash_eq_self (l : List Char) (h : '/' ∉ l) : afterLastSlash l = l := by
  unfold afterLastSlash
  rw [takeWhile_eq_self_of_all _ _ ?_, List.reverse_reverse]
  intro c hc
  rw [List.mem_reverse] at hc
  simp only [decide_eq_true_eq]
  exact fun e => h (e ▸ hc)

theorem stripTrailingSlashes_eq_self (l : List Char) (h : '/' ∉ l) :
    stripTrailingSlashes l = l := by
  unfold stripTrailingSlashes
  rw [dropWhile_eq_self_of_all_false _ _ ?_, List.reverse_reverse]
  intro c hc
  rw [List.mem_reverse] at hc
  simp only [decide_eq_false_iff_not]
  exact fun e => h (e ▸ hc)

end MinioFile

/-! ## Claims -/

namespace MinioFile

/-- C1 counterexample: with a list input whose second entry has no file key,
`delete` does throw an INVALID_DATA `MedusaError`, but a `removeObject` client
call for the first (valid) entry has already been issued — so the claim that
validation failures never issue a client call is false as stated. -/
theorem C1_counterexample :
    (delete svc0 behOK (.list [some ⟨"a"⟩, none])).result =
      .error ⟨.invalid_data, "No file key provided"⟩
    ∧ (delete svc0 behOK (.list [some ⟨"a"⟩, none])).calls =
        [ClientCall.removeObject "medusa-media" "a"] := ⟨rfl, rfl⟩

/-- C1 (amended): every operation validates its required field before its own
client call: `upload` and `getPresignedUploadUrl` throw INVALID_DATA with no
client call when `filename` is missing or empty, and `getPresignedDownloadUrl`,
`getAsBuffer`, `getDownloadStream`, and `delete` on a single input throw
INVALID_DATA with no client call when `fileKey` is missing or empty; for a
list input, `delete` throws INVALID_DATA when some entry lacks a file key, but
`removeObject` calls are issued for the valid entries preceding the first
invalid one. -/
theorem C1_required_field_validation (svc : Service) (beh : ClientBehavior) (u : String) :
    upload svc beh u none = ⟨.error ⟨.invalid_data, "No file provided"⟩, [], []⟩
    ∧ (∀ mime content, upload svc beh u (some ⟨"", mime, content⟩) =
        ⟨.error ⟨.invalid_data, "No filename provided"⟩, [], []⟩)
    ∧ getPresignedUploadUrl svc beh none =
        ⟨.error ⟨.invalid_data, "No filename provided"⟩, [], []⟩
    ∧ getPresignedUploadUrl svc beh (some ⟨""⟩) =
        ⟨.error ⟨.invalid_data, "No filename provided"⟩, [], []⟩
    ∧ getPresignedDownloadUrl svc beh none =
        ⟨.error ⟨.invalid_data, "No file key provided"⟩, [], []⟩
    ∧ getPresignedDownloadUrl svc beh (some ⟨""⟩) =
        ⟨.error ⟨.invalid_data, "No file key provided"⟩, [], []⟩
    ∧ getAsBuffer svc beh none = ⟨.error ⟨.invalid_data, "No file key provided"⟩, [], []⟩
    ∧ getAsBuffer svc beh (some ⟨""⟩) = ⟨.error ⟨.invalid_data, "No file key provided"⟩, [], []⟩
    ∧ getDownloadStream svc beh none = ⟨.error ⟨.invalid_data, "No file key provided"⟩, [], []⟩
    ∧ getDownloadStream svc beh (some ⟨""⟩) =
        ⟨.error ⟨.invalid_data, "No file key provided"⟩, [], []⟩
    ∧ delete svc beh (.single none) = ⟨.error ⟨.invalid_data, "No file key provided"⟩, [], []⟩
    ∧ delete svc beh (.single (some ⟨""⟩)) =
        ⟨.error ⟨.invalid_data, "No file key provided"⟩, [], []⟩
    ∧ ∀ fs : List (Option FileKeyDTO), (∃ f ∈ fs, validEntry f = false) →
        (delete svc beh (.list fs)).result = .error ⟨.invalid_data, "No file key provided"⟩
        ∧ (delete svc beh (.list fs)).calls =
            (fs.takeWhile validEntry).map
              (fun g => ClientCall.removeObject svc.bucket (keyStr g)) := by
  refine ⟨rfl, fun mime content => rfl, rfl, rfl, rfl, rfl, rfl, rfl, rfl, rfl, rfl, rfl, ?_⟩
  intro fs hex
  have hr := deleteLoop_error_of_invalid svc beh fs hex
  exact ⟨hr, (deleteLoop_error_char svc beh fs _ hr).2⟩

/-- C1 witness: the validation theorem applied at concrete inputs. -/
theorem C1_required_field_validation_witness :
    upload svc0 behOK ulid0 (some ⟨"", "text/plain", "hi"⟩) =
      ⟨.error ⟨.invalid_data, "No filename provided"⟩, [], []⟩
    ∧ (delete svc0 behOK (.list [some ⟨"b"⟩, none])).result =
        .error ⟨.invalid_data, "No file key provided"⟩ := by
  have h := C1_required_field_validation svc0 behOK ulid0
  obtain ⟨_, h2, _, _, _, _, _, _, _, _, _, _, h13⟩ := h
  exact ⟨h2 "text/plain" "hi", (h13 [some ⟨"b"⟩, none] ⟨none, by simp, rfl⟩).1⟩

/-- C2 counterexample: a failing `removeObject` client call inside `delete` is
suppressed, not re-thrown — `delete` returns normally even though the client
call was issued and failed, so the claim that no operation suppresses a client
error is false as stated. -/
theorem C2_counterexample :
    (delete svc0 behFail (.single (some ⟨"k"⟩))).result = .ok ()
    ∧ behFail.removeObjectResult "k" = .error "boom"
    ∧ (delete svc0 behFail (.single (some ⟨"k"⟩))).calls =
        [ClientCall.removeObject "medusa-media" "k"]
    ∧ (delete svc0 behFail (.single (some ⟨"k"⟩))).logs =
        [(.warn, "Failed to delete file k: boom")] := ⟨rfl, rfl, rfl, rfl⟩

/-- C2 (amended): every operation except `delete` catches an error of the
underlying client call and re-throws it as a `MedusaError` (type
UNEXPECTED_STATE) carrying a message built from the client error, including
a stream error inside `getAsBuffer`; `delete` instead catches removal errors
and returns normally. -/
theorem C2_error_translation (svc : Service) (beh : ClientBehavior) (u : String) :
    (∀ f msg, f.filename ≠ "" → beh.putObjectResult = .error msg →
      (upload svc beh u (some f)).result =
        .error ⟨.unexpected_state, "Failed to upload file: " ++ msg⟩)
    ∧ (∀ (fd : FileKeyDTO) msg, fd.fileKey ≠ "" → beh.presignedGetObjectResult = .error msg →
      (getPresignedDownloadUrl svc beh (some fd)).result =
        .error ⟨.unexpected_state, "Failed to generate presigned URL: " ++ msg⟩)
    ∧ (∀ (fd : PresignedUploadDTO) msg, fd.filename ≠ "" →
        beh.presignedPutObjectResult = .error msg →
      (getPresignedUploadUrl svc beh (some fd)).result =
        .error ⟨.unexpected_state, "Failed to generate presigned upload URL: " ++ msg⟩)
    ∧ (∀ (fd : FileKeyDTO) msg, fd.fileKey ≠ "" → beh.getObjectResult = .error msg →
      (getAsBuffer svc beh (some fd)).result =
        .error ⟨.unexpected_state, "Failed to get buffer: " ++ msg⟩)
    ∧ (∀ (fd : FileKeyDTO) s msg, fd.fileKey ≠ "" → beh.getObjectResult = .ok s →
        s.errorAfter = some msg →
      (getAsBuffer svc beh (some fd)).result =
        .error ⟨.unexpected_state, "Failed to get buffer: " ++ msg⟩)
    ∧ (∀ (fd : FileKeyDTO) msg, fd.fileKey ≠ "" → beh.getObjectResult = .error msg →
      (getDownloadStream svc beh (some fd)).result =
        .error ⟨.unexpected_state, "Failed to get download stream: " ++ msg⟩)
    ∧ (∀ input, (∀ f ∈ normalizeDeleteInput input, validEntry f = true) →
      (delete svc beh input).result = .ok ()) := by
  refine ⟨?_, ?_, ?_, ?_, ?_, ?_, ?_⟩
  · intro f msg hf hp; simp [upload, hf, hp]
  · intro fd msg hk hp; simp [getPresignedDownloadUrl, hk, hp]
  · intro fd msg hk hp; simp [getPresignedUploadUrl, hk, hp]
  · intro fd msg hk hg; simp [getAsBuffer, hk, hg]
  · intro fd s msg hk hg he; simp [getAsBuffer, hk, hg, he]
  · intro fd msg hk hg; simp [getDownloadStream, hk, hg]
  · intro input hall; exact (deleteLoop_all_valid svc beh _ hall).1

/-- C2 witness: the error-translation theorem applied at concrete inputs with
a failing client. -/
theorem C2_error_translation_witness :
    (upload svc0 behFail ulid0 (some ⟨"a.txt", "text/plain", "hi"⟩)).result =
      .error ⟨.unexpected_state, "Failed to upload file: boom"⟩
    ∧ (getAsBuffer svc0 behFail (some ⟨"k"⟩)).result =
        .error ⟨.unexpected_state, "Failed to get buffer: boom"⟩
    ∧ (delete svc0 behFail (.list [some ⟨"x"⟩])).result = .ok () := by
  have h := C2_error_translation svc0 behFail ulid0
  refine ⟨h.1 ⟨"a.txt", "text/plain", "hi"⟩ "boom" (by decide) rfl,
    h.2.2.2.1 ⟨"k"⟩ "boom" (by decide) rfl,
    h.2.2.2.2.2.2 (.list [some ⟨"x"⟩]) ?_⟩
  intro f hf
  simp [normalizeDeleteInput] at hf
  subst hf
  decide

/-- C3: for every delete input all of whose entries carry a file key, `delete`
returns normally whatever the client does, and every failing `removeObject`
call is logged as a warning. -/
theorem C3_delete_unknown_key_logs_and_returns (svc : Service) (beh : ClientBehavior)
    (input : DeleteInput)
    (hall : ∀ f ∈ normalizeDeleteInput input, validEntry f = true) :
    (delete svc beh input).result = .ok ()
    ∧ ∀ fd msg, some fd ∈ normalizeDeleteInput input →
        beh.removeObjectResult fd.fileKey = .error msg →
        (LogLevel.warn, "Failed to delete file " ++ fd.fileKey ++ ": " ++ msg)
          ∈ (delete svc beh input).logs := by
  have h := deleteLoop_all_valid svc beh (normalizeDeleteInput input) hall
  refine ⟨h.1, ?_⟩
  intro fd msg hmem herr
  have hm : removeLog svc beh (keyStr (some fd)) ∈ (delete svc beh input).logs := by
    show removeLog svc beh (keyStr (some fd))
      ∈ (deleteLoop svc beh (normalizeDeleteInput input)).logs
    rw [h.2.2]
    exact List.mem_map_of_mem _ hmem
  simpa [removeLog, keyStr, herr] using hm

/-- C3 witness: deleting an unknown key with a failing client logs a warning
and returns. -/
theorem C3_delete_unknown_key_witness :
    (delete svc0 behFail (.single (some ⟨"unknown"⟩))).result = .ok ()
    ∧ (LogLevel.warn, "Failed to delete file unknown: boom")
        ∈ (delete svc0 behFail (.single (some ⟨"unknown"⟩))).logs := by
  have h := C3_delete_unknown_key_logs_and_returns svc0 behFail (.single (some ⟨"unknown"⟩))
    (by intro f hf; simp [normalizeDeleteInput] at hf; subst hf; decide)
  exact ⟨h.1, h.2 ⟨"unknown"⟩ "boom" (by simp [normalizeDeleteInput]) rfl⟩

/-- C4 counterexample: `delete` of the list whose first entry is valid and
whose second lacks a file key throws, yet the `removeObject` call for the
first entry was already issued — the store state is not unchanged on error, so
the no-partial-failure claim is false as stated. -/
theorem C4_counterexample :
    (delete svc0 behOK (.list [some ⟨"x"⟩, some ⟨""⟩])).result =
      .error ⟨.invalid_data, "No file key provided"⟩
    ∧ (delete svc0 behOK (.list [some ⟨"x"⟩, some ⟨""⟩])).calls =
        [ClientCall.removeObject "medusa-media" "x"] := ⟨rfl, rfl⟩

/-- C4 (amended): when `delete` of a list throws, the error is the
INVALID_DATA missing-file-key error, and the removals already performed are
exactly those for the entries preceding the first entry without a file key —
so the state is unchanged only when no valid entry precedes the first invalid
one. -/
theorem C4_delete_error_trace (svc : Service) (beh : ClientBehavior)
    (fs : List (Option FileKeyDTO)) (e : MedusaError)
    (h : (delete svc beh (.list fs)).result = .error e) :
    e = ⟨.invalid_data, "No file key provided"⟩
    ∧ (delete svc beh (.list fs)).calls =
        (fs.takeWhile validEntry).map (fun g => ClientCall.removeObject svc.bucket (keyStr g)) :=
  deleteLoop_error_char svc beh fs e h

/-- C4 witness: the trace characterization applied to a list whose first
entry is invalid. -/
theorem C4_delete_error_trace_witness :
    (⟨.invalid_data, "No file key provided"⟩ : MedusaError) =
      ⟨.invalid_data, "No file key provided"⟩
    ∧ (delete svc0 behOK (.list [some ⟨""⟩, some ⟨"y"⟩])).calls = [] :=
  C4_delete_error_trace svc0 behOK [some ⟨""⟩, some ⟨"y"⟩]
    ⟨.invalid_data, "No file key provided"⟩ rfl

/-- C5: for every input with a file key, `getPresignedDownloadUrl` asks the
client for a URL expiring in exactly 24*60*60 seconds, and for every input
with a filename, `getPresignedUploadUrl` asks for a URL expiring in exactly
15*60 seconds, independent of the input. -/
theorem C5_presigned_expiries (svc : Service) (beh : ClientBehavior) :
    (∀ fd : FileKeyDTO, fd.fileKey ≠ "" →
      (getPresignedDownloadUrl svc beh (some fd)).calls =
        [ClientCall.presignedGetObject svc.bucket fd.fileKey (24 * 60 * 60)])
    ∧ (∀ fd : PresignedUploadDTO, fd.filename ≠ "" →
      (getPresignedUploadUrl svc beh (some fd)).calls =
        [ClientCall.presignedPutObject svc.bucket fd.filename (15 * 60)]) := by
  constructor
  · intro fd hk
    rcases hp : beh.presignedGetObjectResult with msg | url <;>
      simp [getPresignedDownloadUrl, hk, hp]
  · intro fd hk
    rcases hp : beh.presignedPutObjectResult with msg | url <;>
      simp [getPresignedUploadUrl, hk, hp]

/-- C5 witness: the expiry theorem applied at concrete inputs (86400 and 900
seconds). -/
theorem C5_presigned_expiries_witness :
    (getPresignedDownloadUrl svc0 behOK (some ⟨"k"⟩)).calls =
      [ClientCall.presignedGetObject "medusa-media" "k" 86400]
    ∧ (getPresignedUploadUrl svc0 behOK (some ⟨"f.png"⟩)).calls =
      [ClientCall.presignedPutObject "medusa-media" "f.png" 900] := by
  have h := C5_presigned_expiries svc0 behOK
  exact ⟨h.1 ⟨"k"⟩ (by decide), h.2 ⟨"f.png"⟩ (by decide)⟩

/-- C6 counterexample: when the bucket does not exist, the adapter itself
issues `makeBucket` and `setBucketPolicy` calls from `initializeBucket` — so
the claim that the adapter performs no bucket creation or bucket-policy
setting of its own is false. -/
theorem C6_counterexample :
    ClientCall.makeBucket "medusa-media" ∈ (initializeBucket svc0 behNoBucket).calls
    ∧ ClientCall.setBucketPolicy "medusa-media" (bucketPolicyJson "medusa-media")
        ∈ (initializeBucket svc0 behNoBucket).calls := by
  constructor <;> simp [initializeBucket, behNoBucket, svc0]

/-- C6 (amended): the adapter itself enforces the bucket-existence invariant
at construction: `initializeBucket` checks existence, creates the bucket and
sets a public-read policy when it is missing, and re-applies the policy when
it already exists (returning normally). -/
theorem C6_adapter_initializes_bucket (svc : Service) (beh : ClientBehavior) :
    (beh.bucketExistsResult = .ok false → beh.makeBucketResult = .ok () →
      (initializeBucket svc beh).calls =
        [ClientCall.bucketExists svc.bucket, ClientCall.makeBucket svc.bucket,
         ClientCall.setBucketPolicy svc.bucket (bucketPolicyJson svc.bucket)])
    ∧ (beh.bucketExistsResult = .ok true →
      (initializeBucket svc beh).calls =
        [ClientCall.bucketExists svc.bucket,
         ClientCall.setBucketPolicy svc.bucket (bucketPolicyJson svc.bucket)]
      ∧ (initializeBucket svc beh).result = .ok ()) := by
  constructor
  · intro he hm
    rcases hp : beh.setBucketPolicyResult with msg | _ <;> simp [initializeBucket, he, hm, hp]
  · intro he
    rcases hp : beh.setBucketPolicyResult with msg | _ <;>
      exact ⟨by simp [initializeBucket, he, hp], by simp [initializeBucket, he, hp]⟩

/-- C6 witness: the initialization theorem applied to a missing bucket. -/
theorem C6_adapter_initializes_bucket_witness :
    (initializeBucket svc0 behNoBucket).calls =
      [ClientCall.bucketExists "medusa-media", ClientCall.makeBucket "medusa-media",
       ClientCall.setBucketPolicy "medusa-media" (bucketPolicyJson "medusa-media")] :=
  (C6_adapter_initializes_bucket svc0 behNoBucket).1 rfl rfl

/-- C7: `getAsBuffer` with a file key issues exactly one `getObject` call and
returns the in-order concatenation of all stream chunks on a clean end; on a
stream error or a `getObject` failure it throws a `MedusaError` instead of
returning a partial buffer. -/
theorem C7_getAsBuffer_pass_through (svc : Service) (beh : ClientBehavior)
    (fd : FileKeyDTO) (hk : fd.fileKey ≠ "") :
    (getAsBuffer svc beh (some fd)).calls = [ClientCall.getObject svc.bucket fd.fileKey]
    ∧ (∀ s, beh.getObjectResult = .ok s → s.errorAfter = none →
        (getAsBuffer svc beh (some fd)).result = .ok s.chunks.flatten)
    ∧ (∀ s msg, beh.getObjectResult = .ok s → s.errorAfter = some msg →
        (getAsBuffer svc beh (some fd)).result =
          .error ⟨.unexpected_state, "Failed to get buffer: " ++ msg⟩)
    ∧ (∀ msg, beh.getObjectResult = .error msg →
        (getAsBuffer svc beh (some fd)).result =
          .error ⟨.unexpected_state, "Failed to get buffer: " ++ msg⟩) := by
  refine ⟨?_, ?_, ?_, ?_⟩
  · rcases hg : beh.getObjectResult with msg | s
    · simp [getAsBuffer, hk, hg]
    · rcases he : s.errorAfter with _ | msg <;> simp [getAsBuffer, hk, hg, he]
  · intro s hg he; simp [getAsBuffer, hk, hg, he]
  · intro s msg hg he; simp [getAsBuffer, hk, hg, he]
  · intro msg hg; simp [getAsBuffer, hk, hg]

/-- C7 witness: the pass-through theorem applied to a two-byte stream. -/
theorem C7_getAsBuffer_witness :
    (getAsBuffer svc0 behOK (some ⟨"k"⟩)).calls = [ClientCall.getObject "medusa-media" "k"]
    ∧ (getAsBuffer svc0 behOK (some ⟨"k"⟩)).result = .ok [104, 105] := by
  have h := C7_getAsBuffer_pass_through svc0 behOK ⟨"k"⟩ (by decide)
  exact ⟨h.1, h.2.1 ⟨[[104, 105]], none⟩ rfl rfl⟩

/-- C8: the bucket is fixed at construction — it is `options.bucket` when that
is a non-empty string and the default `medusa-media` otherwise — and every
client call issued by `upload`, `delete`, both presign operations,
`getAsBuffer`, and `getDownloadStream` carries exactly the service bucket. -/
theorem C8_bucket_fixed_for_all_calls (opts : Options) (ep : ParsedEndpoint)
    (svc : Service) (beh : ClientBehavior) (u : String)
    (file : Option UploadFileDTO) (input : DeleteInput)
    (pfd : Option PresignedUploadDTO) (gfd : Option FileKeyDTO) :
    (∀ b, opts.bucket = some b → b ≠ "" → (mkService opts ep).bucket = b)
    ∧ ((opts.bucket = none ∨ opts.bucket = some "") →
        (mkService opts ep).bucket = DEFAULT_BUCKET)
    ∧ (∀ c ∈ (upload svc beh u file).calls, c.bucketOf = svc.bucket)
    ∧ (∀ c ∈ (delete svc beh input).calls, c.bucketOf = svc.bucket)
    ∧ (∀ c ∈ (getPresignedDownloadUrl svc beh gfd).calls, c.bucketOf = svc.bucket)
    ∧ (∀ c ∈ (getPresignedUploadUrl svc beh pfd).calls, c.bucketOf = svc.bucket)
    ∧ (∀ c ∈ (getAsBuffer svc beh gfd).calls, c.bucketOf = svc.bucket)
    ∧ (∀ c ∈ (getDownloadStream svc beh gfd).calls, c.bucketOf = svc.bucket) := by
  refine ⟨?_, ?_, ?_, ?_, ?_, ?_, ?_, ?_⟩
  · intro b hb hne; simp [mkService, jsOr, hb, hne]
  · rintro (hb | hb) <;> simp [mkService, jsOr, hb]
  · intro c hc
    match file with
    | none => simp [upload] at hc
    | some f =>
      by_cases hf : f.filename = ""
      · simp [upload, hf] at hc
      · rcases hp : beh.putObjectResult with msg | _ <;>
          · simp [upload, hf, hp] at hc
            subst hc
            rfl
  · exact fun c hc => deleteLoop_calls_bucket svc beh (normalizeDeleteInput input) c hc
  · intro c hc
    match gfd with
    | none => simp [getPresignedDownloadUrl] at hc
    | some fd =>
      by_cases hk : fd.fileKey = ""
      · simp [getPresignedDownloadUrl, hk] at hc
      · rcases hp : beh.presignedGetObjectResult with msg | url <;>
          · simp [getPresignedDownloadUrl, hk, hp] at hc
            subst hc
            rfl
  · intro c hc
    match pfd with
    | none => simp [getPresignedUploadUrl] at hc
    | some fd =>
      by_cases hk : fd.filename = ""
      · simp [getPresignedUploadUrl, hk] at hc
      · rcases hp : beh.presignedPutObjectResult with msg | url <;>
          · simp [getPresignedUploadUrl, hk, hp] at hc
            subst hc
            rfl
  · intro c hc
    match gfd with
    | none => simp [getAsBuffer] at hc
    | some fd =>
      by_cases hk : fd.fileKey = ""
      · simp [getAsBuffer, hk] at hc
      · rcases hg : beh.getObjectResult with msg | s
        · simp [getAsBuffer, hk, hg] at hc
          subst hc
          rfl
        · rcases he : s.errorAfter with _ | msg <;>
            · simp [getAsBuffer, hk, hg, he] at hc
              subst hc
              rfl
  · intro c hc
    match gfd with
    | none => simp [getDownloadStream] at hc
    | some fd =>
      by_cases hk : fd.fileKey = ""
      · simp [getDownloadStream, hk] at hc
      · rcases hg : beh.getObjectResult with msg | s <;>
          · simp [getDownloadStream, hk, hg] at hc
            subst hc
            rfl

/-- C8 witness: the bucket theorem applied to a custom bucket, a defaulted
bucket, and a concrete upload. -/
theorem C8_bucket_fixed_witness :
    (mkService ⟨"https://minio.internal:9000", "ak", "sk", some "custom-bucket", none⟩
        ⟨"https:", "minio.internal", 9000, "minio.internal:9000"⟩).bucket = "custom-bucket"
    ∧ (mkService ⟨"https://minio.internal:9000", "ak", "sk", none, none⟩
        ⟨"https:", "minio.internal", 9000, "minio.internal:9000"⟩).bucket = DEFAULT_BUCKET
    ∧ ∀ c ∈ (upload svc0 behOK ulid0 (some ⟨"a.txt", "text/plain", "hi"⟩)).calls,
        c.bucketOf = svc0.bucket := by
  refine ⟨?_, ?_, ?_⟩
  · exact (C8_bucket_fixed_for_all_calls
      ⟨"https://minio.internal:9000", "ak", "sk", some "custom-bucket", none⟩
      ⟨"https:", "minio.internal", 9000, "minio.internal:9000"⟩
      svc0 behOK ulid0 none (.single none) none none).1 "custom-bucket" rfl (by decide)
  · exact (C8_bucket_fixed_for_all_calls
      ⟨"https://minio.internal:9000", "ak", "sk", none, none⟩
      ⟨"https:", "minio.internal", 9000, "minio.internal:9000"⟩
      svc0 behOK ulid0 none (.single none) none none).2.1 (Or.inl rfl)
  · exact (C8_bucket_fixed_for_all_calls
      ⟨"https://minio.internal:9000", "ak", "sk", none, none⟩
      ⟨"https:", "minio.internal", 9000, "minio.internal:9000"⟩
      svc0 behOK ulid0 (some ⟨"a.txt", "text/plain", "hi"⟩) (.single none) none none).2.2.1

/-- C9: a successful upload of a file with a filename returns a key of the
form `name ++ "-" ++ u ++ ext` where `name` and `ext` come from
`path.parse` of the filename and `u` is the generated ULID — so the original
extension is preserved and the key differs from the original filename — and a
url equal to `publicEndpoint ++ "/" ++ bucket ++ "/" ++ key`. -/
theorem C9_upload_key_form (svc : Service) (beh : ClientBehavior) (u : String)
    (f : UploadFileDTO) (hf : f.filename ≠ "") (hput : beh.putObjectResult = .ok ())
    (hu : isULID u = true) :
    ∃ r : FileResultDTO, (upload svc beh u (some f)).result = .ok r
      ∧ r.key = (pathParse f.filename).1 ++ "-" ++ u ++ (pathParse f.filename).2
      ∧ (∃ stem, r.key = stem ++ (pathParse f.filename).2)
      ∧ r.key ≠ f.filename
      ∧ r.url = svc.publicEndpoint ++ "/" ++ svc.bucket ++ "/" ++ r.key := by
  have hulen : u.data.length = 26 := by
    have h1 := (Bool.and_eq_true _ _).mp hu
    simpa using h1.1
  have huslash : '/' ∉ u.data := by
    intro hmem
    have h2 := ((Bool.and_eq_true _ _).mp hu).2
    have h3 := List.all_eq_true.mp h2 _ hmem
    exact absurd h3 (by decide)
  refine ⟨⟨svc.publicEndpoint ++ "/" ++ svc.bucket ++ "/"
      ++ ((pathParse f.filename).1 ++ "-" ++ u ++ (pathParse f.filename).2),
      (pathParse f.filename).1 ++ "-" ++ u ++ (pathParse f.filename).2⟩,
    ?_, rfl, ⟨(pathParse f.filename).1 ++ "-" ++ u, rfl⟩, ?_, rfl⟩
  · simp [upload, hf, hput]
  · intro hkey
    have hdata : ((pathParse f.filename).1 ++ "-" ++ u ++ (pathParse f.filename).2).data
        = f.filename.data := congrArg String.data hkey
    simp only [String.data_append] at hdata
    have hn : (pathParse f.filename).1.data
        = (extSplit (afterLastSlash (stripTrailingSlashes f.filename.data))).1 := rfl
    have he : (pathParse f.filename).2.data
        = (extSplit (afterLastSlash (stripTrailingSlashes f.filename.data))).2 := rfl
    rw [hn, he] at hdata
    by_cases hs : '/' ∈ f.filename.data
    · have hmem : '/' ∈ (extSplit (afterLastSlash (stripTrailingSlashes f.filename.data))).1
          ++ ("-" : String).data ++ u.data
          ++ (extSplit (afterLastSlash (stripTrailingSlashes f.filename.data))).2 := by
        rw [hdata]
        exact hs
      rcases List.mem_append.mp hmem with h1 | h1
      · rcases List.mem_append.mp h1 with h2 | h2
        · rcases List.mem_append.mp h2 with h3 | h3
          · exact afterLastSlash_no_slash _ (extSplit_name_mem _ _ h3)
          · simp at h3
        · exact huslash h2
      · rcases extSplit_ext_mem _ _ h1 with h2 | h2
        · exact absurd h2 (by decide)
        · exact afterLastSlash_no_slash _ h2
    · have hbe : afterLastSlash (stripTrailingSlashes f.filename.data) = f.filename.data := by
        rw [stripTrailingSlashes_eq_self _ hs, afterLastSlash_eq_self _ hs]
      have hsplit := congrArg List.length
        (extSplit_append (afterLastSlash (stripTrailingSlashes f.filename.data)))
      rw [List.length_append, hbe] at hsplit
      have hlen := congrArg List.length hdata
      rw [hbe] at hlen
      simp only [List.length_append, hulen] at hlen
      have hdash : ("-" : String).data.length = 1 := rfl
      rw [hdash] at hlen
      omega

/-- C9 witness: the key-form theorem applied to a concrete upload. -/
theorem C9_upload_key_form_witness :
    ∃ r : FileResultDTO,
      (upload svc0 behOK ulid0 (some ⟨"photo.png", "image/png", "hi"⟩)).result = .ok r
      ∧ r.key = (pathParse "photo.png").1 ++ "-" ++ ulid0 ++ (pathParse "photo.png").2
      ∧ (∃ stem, r.key = stem ++ (pathParse "photo.png").2)
      ∧ r.key ≠ "photo.png"
      ∧ r.url = svc0.publicEndpoint ++ "/" ++ svc0.bucket ++ "/" ++ r.key :=
  C9_upload_key_form svc0 behOK ulid0 ⟨"photo.png", "image/png", "hi"⟩
    (by decide) rfl (by decide)

end MinioFile

namespace Storefront

/-- C10: `FeaturedProducts` renders `null` exactly when the fetched
collections value is absent or the region lookup yields no region; otherwise
it renders one list item per fetched collection, in the fetched order. -/
theorem C10_featured_products (cs : List Collection) (r : Region) :
    (∀ (co : Option (List Collection)) (ro : Option Region),
      FeaturedProducts co ro = none ↔ co = none ∨ ro = none)
    ∧ FeaturedProducts (some cs) (some r) = some (cs.map (fun c => ⟨c.id, c, r⟩))
    ∧ (cs.map (fun c => (⟨c.id, c, r⟩ : RenderedItem))).length = cs.length
    ∧ ∀ i : Nat, (cs.map (fun c => (⟨c.id, c, r⟩ : RenderedItem)))[i]? =
        cs[i]?.map (fun c => (⟨c.id, c, r⟩ : RenderedItem)) := by
  refine ⟨?_, rfl, by simp, fun i => by simp⟩
  intro co ro
  match co, ro with
  | none, ro => simp [FeaturedProducts]
  | some cs2, none => simp [FeaturedProducts]
  | some cs2, some r2 => simp [FeaturedProducts]

end Storefront
